import Mathlib

/-!
Verification of the retry/formatting core of `twitter_bot.py`.

The repository's single source file contains two interleaved revisions of the
same script; the operative logic (the blocks the specification describes) is:

* `get_top_tokens` — fetch a JSON list of token records, count per token the
  `channel_calls` entries with `win_rate > 30`, drop tokens whose count is 0,
  annotate a shallow copy of each survivor with `filtered_calls`, sort by that
  count descending (Python's `sorted` with `reverse=True`, a stable sort) and
  return the first 3; on a fetch error return `None`.
* `generate_ai_tweet` — up to 3 attempts against the LLM provider; an empty /
  whitespace-only completion raises `ValueError` and counts as a failed
  attempt; between failed attempts `time.sleep(5)`; after the last failure the
  exception is re-raised and caught by the surrounding handler, which returns
  `None`.  On success the completion is stripped, label artifacts removed, and
  the result length-normalized: with `link_to_add = "\n\n🔗 outlight.fun"` and
  `max_text_length = 280 - len(link_to_add)`, a too-long body is cut to
  `max_text_length - 3` characters plus `"..."`, then the suffix is appended.
* `safe_tweet_with_retry` — up to 3 attempts to post; on `TooManyRequests`
  wait `max(reset_time - now + 60, 300)` seconds unless it was the last
  attempt (then re-raise); on `Forbidden`/`BadRequest` re-raise immediately;
  on any other exception sleep 30 seconds and retry, re-raising on the last
  attempt.

Strings are modelled as `List Char` (Python `len`/slicing count code points,
as does `List Char` — the suffix's emoji is a single scalar value in both).
-/

/-- Python string: a list of Unicode code points. -/
abbrev PyStr := List Char

/-- The characters removed by Python's `str.strip()` (ASCII whitespace set;
the completions handled here are ordinary text). -/
def isPySpace (c : Char) : Bool :=
  c = ' ' || c = '\t' || c = '\n' || c = '\x0d' || c = '\x0b' || c = '\x0c'

/-- Python `s.strip()`: drop leading and trailing whitespace. -/
def pyStrip (s : PyStr) : PyStr :=
  ((s.dropWhile isPySpace).reverse.dropWhile isPySpace).reverse

/-- Python `s.replace(pat, "")` for a non-empty `pat`: remove all
non-overlapping occurrences, scanning left to right. -/
def replaceAll (pat : PyStr) (s : PyStr) : PyStr :=
  if hp : pat.isEmpty then s
  else
    match s with
    | [] => []
    | c :: cs =>
      if pat.isPrefixOf (c :: cs) then
        replaceAll pat ((c :: cs).drop pat.length)
      else
        c :: replaceAll pat cs
termination_by s.length
decreasing_by
  · simp only [List.length_drop]
    have hl : 1 ≤ pat.length := by
      cases pat with
      | nil => simp [List.isEmpty] at hp
      | cons a as => simp
    simp only [List.length_cons]
    omega
  · simp

/-- The fixed promotional suffix `link_to_add = "\n\n🔗 outlight.fun"`
(16 code points). -/
def link_to_add : PyStr := "\n\n🔗 outlight.fun".data

/-- `max_text_length = 280 - len(link_to_add)`. -/
def max_text_length : Nat := 280 - link_to_add.length

/-- The ellipsis `"..."` appended to a truncated body. -/
def ellipsis : PyStr := "...".data

/-- The Length Normalization block of `generate_ai_tweet`:
`if len(main_tweet) > max_text_length: main_tweet = main_tweet[:max_text_length - 3] + "..."`
followed by `main_tweet += link_to_add`. -/
def lengthNormalize (main_tweet : PyStr) : PyStr :=
  if main_tweet.length > max_text_length then
    (main_tweet.take (max_text_length - 3) ++ ellipsis) ++ link_to_add
  else
    main_tweet ++ link_to_add

/-! ### Ranking Fetch (`get_top_tokens`) -/

/-- An entry of a token's `channel_calls` list; only its `win_rate` field is
inspected (`call.get('win_rate', 0)`). -/
structure ChannelCall where
  win_rate : Int
deriving DecidableEq

/-- A parsed record of the ranking provider's JSON array. -/
structure Token where
  symbol : String
  address : String
  channel_calls : List ChannelCall
deriving DecidableEq

/-- `count_calls = len([call for call in channel_calls if call.get('win_rate', 0) > 30])`. -/
def count_calls (token : Token) : Nat :=
  (token.channel_calls.filter (fun call => 30 < call.win_rate)).length

/-- A surviving record: `token_copy` with the extra `filtered_calls` entry. -/
structure RankedToken where
  base : Token
  filtered_calls : Nat
deriving DecidableEq

/-- The loop of `get_top_tokens`: keep each token with `count_calls > 0`,
annotated with its count. -/
def tokens_with_filtered_calls (data : List Token) : List RankedToken :=
  (data.filter (fun token => 0 < count_calls token)).map
    (fun token => ⟨token, count_calls token⟩)

/-- One step of Python's stable `sorted(..., key=..., reverse=True)`:
insert `x` before the first element whose key is not larger.  Elements already
in the list came earlier in the original order only if they have a strictly
larger key or already sit in front, so equal keys keep their original order. -/
def insertDescBy {α β : Type} [LinearOrder β] (key : α → β) (x : α) : List α → List α
  | [] => [x]
  | y :: ys => if key y ≤ key x then x :: y :: ys else y :: insertDescBy key x ys

/-- Python's `sorted(l, key=key, reverse=True)`: a stable descending sort. -/
def sortDescBy {α β : Type} [LinearOrder β] (key : α → β) : List α → List α
  | [] => []
  | x :: xs => insertDescBy key x (sortDescBy key xs)

/-- Outcome of the HTTP fetch in `get_top_tokens`: either a transport or
HTTP-status error (raised by `requests.get` / `raise_for_status`), or a
parsed list of records. -/
inductive FetchResult where
  | fetchError : FetchResult
  | success : List Token → FetchResult

/-- `get_top_tokens`: on a fetch error return `None` (the `except` handler);
otherwise filter, annotate, sort descending by `filtered_calls` (stable) and
return the first 3. -/
def get_top_tokens (fetch : FetchResult) : Option (List RankedToken) :=
  match fetch with
  | .fetchError => none
  | .success data =>
      some ((sortDescBy (fun x => x.filtered_calls) (tokens_with_filtered_calls data)).take 3)

/-- Python truthiness of the value `main` tests with `if not top_3`:
`None` and the empty list are falsy. -/
def isFalsy : Option (List RankedToken) → Bool
  | none => true
  | some l => l.isEmpty

/-- A demo record with one qualifying call (`win_rate` 40 > 30, 10 is not). -/
def demoToken : Token := ⟨"AAA", "CA1", [⟨40⟩, ⟨10⟩]⟩

/-- A demo record with no qualifying call. -/
def zeroToken : Token := ⟨"ZZZ", "CA0", [⟨10⟩]⟩

/-! ### Publish (`safe_tweet_with_retry`) -/

/-- Outcome of one `client.create_tweet` call: success with a tweet id, a
`tweepy.TooManyRequests` carrying the `x-rate-limit-reset` header value
(`headers.get(..., 0)` supplies 0 when absent), a `tweepy.Forbidden` /
`tweepy.BadRequest`, or any other exception. -/
inductive TweetOutcome where
  | posted : Nat → TweetOutcome
  | tooManyRequests : Int → TweetOutcome
  | forbiddenOrBadRequest : TweetOutcome
  | otherError : TweetOutcome
deriving DecidableEq

/-- How `safe_tweet_with_retry` ends: a successful response, an exception
re-raised to the caller, or falling out of the loop (`return None`,
unreachable for `max_retries > 0`). -/
inductive TweetResult where
  | posted : Nat → TweetResult
  | raised : TweetOutcome → TweetResult
  | exhausted : TweetResult
deriving DecidableEq

/-- `wait_time = max(reset_time - current_time + 60, 300)`. -/
def wait_time (reset_time current_time : Int) : Int :=
  max (reset_time - current_time + 60) 300

/-- The `for attempt in range(max_retries)` loop of `safe_tweet_with_retry`.
`client` gives the outcome of the attempt-indexed `create_tweet` call, `now`
the value of `int(time.time())` read in the rate-limit handler; the second
component of the result collects the durations passed to `time.sleep`. -/
def tweetAttempts (client : Nat → TweetOutcome) (now : Nat → Int) (max_retries : Nat) :
    List Nat → List Int → TweetResult × List Int
  | [], sleeps => (.exhausted, sleeps)
  | attempt :: rest, sleeps =>
    match client attempt with
    | .posted id => (.posted id, sleeps)
    | .tooManyRequests reset =>
      if attempt < max_retries - 1 then
        tweetAttempts client now max_retries rest (sleeps ++ [wait_time reset (now attempt)])
      else
        (.raised (.tooManyRequests reset), sleeps)
    | .forbiddenOrBadRequest => (.raised .forbiddenOrBadRequest, sleeps)
    | .otherError =>
      if attempt = max_retries - 1 then
        (.raised .otherError, sleeps)
      else
        tweetAttempts client now max_retries rest (sleeps ++ [30])

/-- `safe_tweet_with_retry(client, text)` with the default `max_retries=3`. -/
def safe_tweet_with_retry (client : Nat → TweetOutcome) (now : Nat → Int) :
    TweetResult × List Int :=
  tweetAttempts client now 3 (List.range 3) []

/-! ### Content Generation (`generate_ai_tweet`) -/

/-- Outcome of one LLM completion call: a transport / provider error raised
by the SDK, or the completion's text content. -/
inductive GenOutcome where
  | genError : GenOutcome
  | completion : PyStr → GenOutcome

/-- What a run of `generate_ai_tweet`'s retry loop did: the returned value
(`None` after the outer handler catches the last re-raised error), the
durations passed to `time.sleep` between attempts, and how many provider
calls were made. -/
structure GenTrace where
  result : Option PyStr
  sleeps : List Nat
  calls : Nat
deriving DecidableEq

/-- `main_tweet = ai_response.strip().replace("Tweet:", "").replace("MAIN_TWEET:", "").strip()`. -/
def stripLabels (ai_response : PyStr) : PyStr :=
  pyStrip (replaceAll "MAIN_TWEET:".data (replaceAll "Tweet:".data (pyStrip ai_response)))

/-- A failed attempt: a raised transport / provider error, or a completion
that is empty after `strip()` (the code raises `ValueError` on it). -/
def genFails (o : GenOutcome) : Bool :=
  match o with
  | .genError => true
  | .completion content => (pyStrip content).isEmpty

/-- The `for attempt in range(max_retries)` loop of `generate_ai_tweet`
(`max_retries = 3`): any exception on a non-final attempt sleeps 5 seconds
and retries; on the final attempt it is re-raised and the outer handler turns
it into `None`.  A successful attempt strips the completion, rejects it if
empty, removes label artifacts, length-normalizes and returns. -/
def genAttempts (provider : Nat → GenOutcome) :
    List Nat → List Nat → Nat → GenTrace
  | [], sleeps, calls => ⟨none, sleeps, calls⟩
  | attempt :: rest, sleeps, calls =>
    match provider attempt with
    | .genError =>
      if attempt < 3 - 1 then
        genAttempts provider rest (sleeps ++ [5]) (calls + 1)
      else
        ⟨none, sleeps, calls + 1⟩
    | .completion content =>
      let ai_response := pyStrip content
      if ai_response.isEmpty then
        if attempt < 3 - 1 then
          genAttempts provider rest (sleeps ++ [5]) (calls + 1)
        else
          ⟨none, sleeps, calls + 1⟩
      else
        ⟨some (lengthNormalize (stripLabels ai_response)), sleeps, calls + 1⟩

/-- `generate_ai_tweet`, as a function of the provider stub. -/
def generate_ai_tweet (provider : Nat → GenOutcome) : GenTrace :=
  genAttempts provider (List.range 3) [] 0

/-- The C7 scenario's stub: two failures, then the non-empty text "hello". -/
def failTwiceStub : Nat → GenOutcome :=
  fun k => if k < 2 then .genError else .completion "hello".data

/-! ### Frame property of the ranking loop (dict objects) -/

/-- A JSON value as the parsed response holds it; `arr` is the shape of a
`channel_calls` list (an array of objects). -/
inductive JVal where
  | num : Int → JVal
  | str : String → JVal
  | arr : List (List (String × JVal)) → JVal

/-- A Python dict object: keys in insertion order. -/
abbrev Dict := List (String × JVal)

/-- `d.get(k)`: the value at the first (unique) occurrence of `k`. -/
def dictGet : Dict → String → Option JVal
  | [], _ => none
  | (k', v) :: rest, k => if k' = k then some v else dictGet rest k

/-- `d[k] = v`: update the existing key in place, else append a new entry
(Python dicts keep insertion order). -/
def dictSet : Dict → String → JVal → Dict
  | [], k, v => [(k, v)]
  | (k', v') :: rest, k, v =>
    if k' = k then (k, v) :: rest else (k', v') :: dictSet rest k v

/-- `token.get('channel_calls', [])`. -/
def jChannelCalls (token : Dict) : List Dict :=
  match dictGet token "channel_calls" with
  | some (.arr l) => l
  | _ => []

/-- `call.get('win_rate', 0)` (the inspected field is numeric). -/
def jWinRate (call : Dict) : Int :=
  match dictGet call "win_rate" with
  | some (.num n) => n
  | _ => 0

/-- `count_calls` of a token dict. -/
def jCountCalls (token : Dict) : Nat :=
  ((jChannelCalls token).filter (fun call => 30 < jWinRate call)).length

/-- `x.get('filtered_calls', 0)`, the sort key. -/
def jFilteredCalls (d : Dict) : Int :=
  match dictGet d "filtered_calls" with
  | some (.num n) => n
  | _ => 0

/-- The heap during `get_top_tokens`'s loop: every dict object lives at an
index of `store` (the parsed records first, then the allocated copies), and
`result` lists the addresses appended to `tokens_with_filtered_calls`. -/
structure FilterState where
  store : List Dict
  result : List Nat

/-- One iteration of the loop on the record at address `a`:
`token_copy = token.copy()` allocates a fresh object at the end of the store;
`token_copy['filtered_calls'] = count_calls` writes to that fresh address
only; nothing ever writes to `a`. -/
def filterStep (s : FilterState) (a : Nat) : FilterState :=
  let token := s.store.getD a []
  let cnt := jCountCalls token
  if 0 < cnt then
    let addr := s.store.length
    let store1 := s.store ++ [token]
    let store2 := store1.set addr (dictSet (store1.getD addr []) "filtered_calls" (.num cnt))
    { store := store2, result := s.result ++ [addr] }
  else
    s

/-- `for token in data: ...` over the record addresses. -/
def runFilterLoop (s : FilterState) : List Nat → FilterState
  | [] => s
  | a :: as => runFilterLoop (filterStep s a) as

/-- `get_top_tokens` on the heap: run the loop over the parsed records,
read the annotated copies back, sort them (stable, by `filtered_calls`,
descending) and keep 3.  Returns the final heap and the selection. -/
def get_top_tokens_heap (st : List Dict) : List Dict × List Dict :=
  let final := runFilterLoop ⟨st, []⟩ (List.range st.length)
  let sorted_tokens := sortDescBy jFilteredCalls
      (final.result.map (fun a => final.store.getD a []))
  (final.store, sorted_tokens.take 3)

/-! ### Theorems -/

theorem link_to_add_length : link_to_add.length = 16 := by decide

theorem ellipsis_length : ellipsis.length = 3 := by decide

theorem max_text_length_eq : max_text_length = 264 := by decide

/-- C1: Length Normalization is the pure function: a body of length at most
`280 - len(suffix)` gets the suffix appended unchanged; a longer body is cut
to `280 - len(suffix) - 3` code points, gets `"..."` and then the suffix, and
the truncated output has length exactly 280. -/
theorem lengthNormalize_spec (body : PyStr) :
    (body.length ≤ 280 - link_to_add.length → lengthNormalize body = body ++ link_to_add) ∧
    (body.length > 280 - link_to_add.length →
      lengthNormalize body =
        (body.take (280 - link_to_add.length - 3) ++ ellipsis) ++ link_to_add ∧
      (lengthNormalize body).length = 280) := by
  have h16 : link_to_add.length = 16 := link_to_add_length
  have h3 : ellipsis.length = 3 := ellipsis_length
  have h264 : max_text_length = 264 := max_text_length_eq
  constructor
  · intro h
    rw [h16] at h
    have hn : ¬ body.length > max_text_length := by omega
    unfold lengthNormalize
    rw [if_neg hn]
  · intro h
    rw [h16] at h
    have hgt : body.length > max_text_length := by omega
    constructor
    · unfold lengthNormalize
      rw [if_pos hgt, h264, h16]
    · unfold lengthNormalize
      rw [if_pos hgt]
      simp only [List.length_append, List.length_take, h3, h16, h264]
      omega

/-- Witness for `lengthNormalize_spec` at a concrete 300-character body. -/
theorem lengthNormalize_spec_witness :
    (List.replicate 300 'a').length > 280 - link_to_add.length ∧
    (lengthNormalize (List.replicate 300 'a')).length = 280 := by
  have hgt : (List.replicate 300 'a').length > 280 - link_to_add.length := by
    rw [List.length_replicate, link_to_add_length]
    omega
  exact ⟨hgt, ((lengthNormalize_spec (List.replicate 300 'a')).2 hgt).2⟩

/-- C2: the normalized output never exceeds 280 code points and always ends
with the fixed suffix, unmodified. -/
theorem lengthNormalize_le_280_ends_with_suffix (body : PyStr) :
    (lengthNormalize body).length ≤ 280 ∧ ∃ pre, lengthNormalize body = pre ++ link_to_add := by
  unfold lengthNormalize
  by_cases h : body.length > max_text_length
  · rw [if_pos h]
    refine ⟨?_, ⟨_, rfl⟩⟩
    simp only [List.length_append, List.length_take, ellipsis_length, link_to_add_length,
      max_text_length_eq]
    omega
  · rw [if_neg h]
    refine ⟨?_, ⟨_, rfl⟩⟩
    rw [max_text_length_eq] at h
    simp only [List.length_append, link_to_add_length]
    omega

theorem perm_insertDescBy {α β : Type} [LinearOrder β] (key : α → β) (x : α) (l : List α) :
    List.Perm (insertDescBy key x l) (x :: l) := by
  induction l with
  | nil => exact List.Perm.refl _
  | cons y ys ih =>
    by_cases h : key y ≤ key x
    · simp [insertDescBy, h]
    · simp only [insertDescBy, if_neg h]
      exact (ih.cons y).trans (List.Perm.swap x y ys)

theorem perm_sortDescBy {α β : Type} [LinearOrder β] (key : α → β) (l : List α) :
    List.Perm (sortDescBy key l) l := by
  induction l with
  | nil => exact List.Perm.refl _
  | cons x xs ih =>
    exact (perm_insertDescBy key x (sortDescBy key xs)).trans (ih.cons x)

theorem pairwise_insertDescBy {α β : Type} [LinearOrder β] (key : α → β) (x : α)
    (l : List α) (h : l.Pairwise (fun a b => key b ≤ key a)) :
    (insertDescBy key x l).Pairwise (fun a b => key b ≤ key a) := by
  induction l with
  | nil => simp [insertDescBy]
  | cons y ys ih =>
    rcases List.pairwise_cons.mp h with ⟨hy, hys⟩
    by_cases hxy : key y ≤ key x
    · simp only [insertDescBy, if_pos hxy]
      refine List.pairwise_cons.mpr ⟨?_, h⟩
      intro b hb
      rcases List.mem_cons.mp hb with rfl | hb'
      · exact hxy
      · exact le_trans (hy b hb') hxy
    · simp only [insertDescBy, if_neg hxy]
      refine List.pairwise_cons.mpr ⟨?_, ih hys⟩
      intro b hb
      rcases List.mem_cons.mp ((perm_insertDescBy key x ys).mem_iff.mp hb) with rfl | hb'
      · exact le_of_lt (lt_of_not_le hxy)
      · exact hy b hb'

theorem pairwise_sortDescBy {α β : Type} [LinearOrder β] (key : α → β) (l : List α) :
    (sortDescBy key l).Pairwise (fun a b => key b ≤ key a) := by
  induction l with
  | nil => simp [sortDescBy]
  | cons x xs ih => exact pairwise_insertDescBy key x _ ih

theorem filter_insertDescBy {α β : Type} [LinearOrder β] (key : α → β) (x : α)
    (l : List α) (c : β) :
    (insertDescBy key x l).filter (fun r => key r = c) =
      (x :: l).filter (fun r => key r = c) := by
  induction l with
  | nil => simp [insertDescBy]
  | cons y ys ih =>
    by_cases hxy : key y ≤ key x
    · simp [insertDescBy, hxy]
    · have hlt : key x < key y := lt_of_not_le hxy
      simp only [insertDescBy, if_neg hxy]
      by_cases hyc : key y = c
      · have hxc : ¬ (key x = c) := fun hxc => absurd (hxc.trans hyc.symm) (ne_of_lt hlt)
        simp only [List.filter_cons, hyc, hxc, ih, decide_True, decide_False,
          if_true, if_false, ite_true, ite_false]
        simp [hxc]
      · by_cases hxc : key x = c
        · simp only [List.filter_cons, ih]
          simp [hxc, hyc]
        · simp only [List.filter_cons, ih]
          simp [hxc, hyc]

theorem filter_sortDescBy {α β : Type} [LinearOrder β] (key : α → β) (l : List α) (c : β) :
    (sortDescBy key l).filter (fun r => key r = c) = l.filter (fun r => key r = c) := by
  induction l with
  | nil => simp [sortDescBy]
  | cons x xs ih =>
    calc (insertDescBy key x (sortDescBy key xs)).filter (fun r => key r = c)
        = (x :: sortDescBy key xs).filter (fun r => key r = c) :=
          filter_insertDescBy key x _ c
      _ = (x :: xs).filter (fun r => key r = c) := by
          simp only [List.filter_cons, ih]

/-- C3: the ranking output is the 3-element cap of a stable descending sort of
the survivors: the sorted list is a permutation of the annotated survivors,
sorted by `filtered_calls` descending, with equal-count records in original
order (equal-key sublists preserved); every qualifying record survives, and
every returned record has a positive qualifying-call count. -/
theorem get_top_tokens_top3 (data : List Token) :
    ∃ s : List RankedToken,
      get_top_tokens (.success data) = some (s.take 3) ∧
      List.Perm s (tokens_with_filtered_calls data) ∧
      s.Pairwise (fun a b => b.filtered_calls ≤ a.filtered_calls) ∧
      (∀ c : Nat, s.filter (fun r => r.filtered_calls = c) =
        (tokens_with_filtered_calls data).filter (fun r => r.filtered_calls = c)) ∧
      (∀ t ∈ data, 0 < count_calls t → (⟨t, count_calls t⟩ : RankedToken) ∈ s) ∧
      ((get_top_tokens (.success data)).getD []).length ≤ 3 ∧
      (∀ r ∈ (get_top_tokens (.success data)).getD [], 0 < r.filtered_calls ∧
        r.filtered_calls = count_calls r.base) := by
  refine ⟨sortDescBy (fun x => x.filtered_calls) (tokens_with_filtered_calls data),
    rfl, perm_sortDescBy _ _, pairwise_sortDescBy _ _,
    fun c => filter_sortDescBy _ _ c, ?_, ?_, ?_⟩
  · intro t ht hpos
    refine (perm_sortDescBy (fun x : RankedToken => x.filtered_calls) _).mem_iff.mpr ?_
    simp only [tokens_with_filtered_calls, List.mem_map, List.mem_filter]
    exact ⟨t, ⟨ht, by simpa using hpos⟩, rfl⟩
  · simp only [get_top_tokens, Option.getD_some, List.length_take]
    omega
  · intro r hr
    simp only [get_top_tokens, Option.getD_some] at hr
    have hr' : r ∈ sortDescBy (fun x => x.filtered_calls) (tokens_with_filtered_calls data) :=
      List.take_subset 3 _ hr
    have hr'' : r ∈ tokens_with_filtered_calls data :=
      (perm_sortDescBy (fun x => x.filtered_calls) _).mem_iff.mp hr'
    simp only [tokens_with_filtered_calls, List.mem_map, List.mem_filter] at hr''
    obtain ⟨t, ⟨-, hpos⟩, rfl⟩ := hr''
    exact ⟨by simpa using hpos, rfl⟩

/-- Witness for `get_top_tokens_top3`: the single demo record survives with a
positive count. -/
theorem get_top_tokens_top3_witness :
    0 < ((⟨demoToken, 1⟩ : RankedToken)).filtered_calls := by
  obtain ⟨s, -, -, -, -, -, -, hpos⟩ := get_top_tokens_top3 [demoToken]
  exact (hpos ⟨demoToken, 1⟩ (by decide)).1

/-- C8: Ranking Fetch never raises: a transport or HTTP-status error yields
`None` (falsy, so the run is skipped); an empty provider list, or one whose
records are all filtered out, yields the empty (falsy) list. -/
theorem get_top_tokens_no_data (data : List Token) :
    get_top_tokens .fetchError = none ∧
    isFalsy (get_top_tokens .fetchError) = true ∧
    get_top_tokens (.success []) = some [] ∧
    ((∀ t ∈ data, count_calls t = 0) →
      get_top_tokens (.success data) = some [] ∧
      isFalsy (get_top_tokens (.success data)) = true) := by
  refine ⟨rfl, rfl, rfl, fun h => ?_⟩
  have hfil : data.filter (fun token => 0 < count_calls token) = [] := by
    rw [List.filter_eq_nil_iff]
    intro t ht
    simp [h t ht]
  have : tokens_with_filtered_calls data = [] := by
    rw [tokens_with_filtered_calls, hfil]
    rfl
  constructor
  · simp [get_top_tokens, this, sortDescBy]
  · simp [isFalsy, get_top_tokens, this, sortDescBy]

/-- Witness for `get_top_tokens_no_data` on a list whose only record has no
qualifying call. -/
theorem get_top_tokens_no_data_witness :
    get_top_tokens (.success [zeroToken]) = some [] ∧
    isFalsy (get_top_tokens (.success [zeroToken])) = true :=
  (get_top_tokens_no_data [zeroToken]).2.2.2 (by decide)

theorem range_three : List.range 3 = [0, 1, 2] := by decide

/-- C4: on a rate-limit signal the computed wait is exactly
`max(reset_time - now + 60, 300)` (never below the 300-second floor); a
non-final attempt sleeps exactly that long and retries, while the final of
the 3 attempts propagates the failure without sleeping. -/
theorem safe_tweet_rate_limit (client : Nat → TweetOutcome) (now : Nat → Int)
    (reset : Int) (attempt : Nat) (rest : List Nat) (sleeps : List Int) :
    (wait_time reset (now attempt) = max (reset - now attempt + 60) 300 ∧
      300 ≤ wait_time reset (now attempt)) ∧
    (client attempt = .tooManyRequests reset → attempt < 2 →
      tweetAttempts client now 3 (attempt :: rest) sleeps =
        tweetAttempts client now 3 rest (sleeps ++ [wait_time reset (now attempt)])) ∧
    (client 2 = .tooManyRequests reset →
      tweetAttempts client now 3 (2 :: rest) sleeps =
        (.raised (.tooManyRequests reset), sleeps)) := by
  refine ⟨⟨rfl, le_max_right _ _⟩, fun h hlt => ?_, fun h => ?_⟩
  · simp only [tweetAttempts, h]
    rw [if_pos (by omega)]
  · simp only [tweetAttempts, h]
    rw [if_neg (by omega)]

/-- Witness for `safe_tweet_rate_limit`: with reset-time hint 1000 read at
time 900 (the spec's `T` at `T-100`), all three attempts rate-limited: two
300-second sleeps, then the failure propagates. -/
theorem safe_tweet_rate_limit_witness :
    tweetAttempts (fun _ => .tooManyRequests 1000) (fun _ => 900) 3 [0, 1, 2] [] =
      (.raised (.tooManyRequests 1000), [300, 300]) ∧
    wait_time 1000 900 = 300 := by
  have h0 := safe_tweet_rate_limit (fun _ => .tooManyRequests 1000) (fun _ => 900) 1000 0 [1, 2] []
  have h1 := safe_tweet_rate_limit (fun _ => .tooManyRequests 1000) (fun _ => 900) 1000 1 [2]
    [wait_time 1000 900]
  have h2 := safe_tweet_rate_limit (fun _ => .tooManyRequests 1000) (fun _ => 900) 1000 2 []
    [wait_time 1000 900, wait_time 1000 900]
  have hw : wait_time 1000 900 = 300 := by
    rw [h0.1.1]
    norm_num
  refine ⟨?_, hw⟩
  rw [h0.2.1 rfl (by omega)]
  simp only [List.nil_append]
  rw [h1.2.1 rfl (by omega)]
  simp only [List.singleton_append]
  rw [h2.2.2 rfl, hw]

/-- C5: a `Forbidden` / `BadRequest` from the provider is re-raised at once:
no retry and no sleep, on any attempt of any retry budget, including the
first attempt of the run. -/
theorem safe_tweet_fatal (client : Nat → TweetOutcome) (now : Nat → Int)
    (max_retries attempt : Nat) (rest : List Nat) (sleeps : List Int)
    (h : client attempt = .forbiddenOrBadRequest) :
    tweetAttempts client now max_retries (attempt :: rest) sleeps =
      (.raised .forbiddenOrBadRequest, sleeps) ∧
    (client 0 = .forbiddenOrBadRequest →
      safe_tweet_with_retry client now = (.raised .forbiddenOrBadRequest, [])) := by
  constructor
  · simp [tweetAttempts, h]
  · intro h0
    rw [safe_tweet_with_retry, range_three]
    simp [tweetAttempts, h0]

/-- Witness for `safe_tweet_fatal`: an authorization failure on the very
first attempt aborts with no sleeps. -/
theorem safe_tweet_fatal_witness :
    tweetAttempts (fun _ => .forbiddenOrBadRequest) (fun _ => 0) 3 [0, 1, 2] [] =
      (.raised .forbiddenOrBadRequest, []) ∧
    safe_tweet_with_retry (fun _ => .forbiddenOrBadRequest) (fun _ => 0) =
      (.raised .forbiddenOrBadRequest, []) := by
  have h := safe_tweet_fatal (fun _ => .forbiddenOrBadRequest) (fun _ => 0) 3 0 [1, 2] [] rfl
  exact ⟨h.1, h.2 rfl⟩

/-- C9: any error other than rate-limit / authorization / malformed-request
sleeps a fixed 30 seconds and retries, except on the final of the 3 attempts,
where it is propagated instead. -/
theorem safe_tweet_other_error (client : Nat → TweetOutcome) (now : Nat → Int)
    (attempt : Nat) (rest : List Nat) (sleeps : List Int) :
    (client attempt = .otherError → attempt ≠ 2 →
      tweetAttempts client now 3 (attempt :: rest) sleeps =
        tweetAttempts client now 3 rest (sleeps ++ [30])) ∧
    (client 2 = .otherError →
      tweetAttempts client now 3 (2 :: rest) sleeps = (.raised .otherError, sleeps)) ∧
    safe_tweet_with_retry (fun _ => .otherError) now = (.raised .otherError, [30, 30]) := by
  refine ⟨fun h hne => ?_, fun h => ?_, ?_⟩
  · simp only [tweetAttempts, h]
    rw [if_neg (by omega)]
  · simp [tweetAttempts, h]
  · rw [safe_tweet_with_retry, range_three]
    simp [tweetAttempts]

/-- Witness for `safe_tweet_other_error`: a generic error on every attempt
gives two 30-second sleeps, then propagates. -/
theorem safe_tweet_other_error_witness :
    tweetAttempts (fun _ => .otherError) (fun _ => 0) 3 [0, 1, 2] [] =
      (.raised .otherError, [30, 30]) ∧
    safe_tweet_with_retry (fun _ => .otherError) (fun _ => 0) =
      (.raised .otherError, [30, 30]) := by
  have h0 := safe_tweet_other_error (fun _ => .otherError) (fun _ => (0 : Int)) 0 [1, 2] []
  have h1 := safe_tweet_other_error (fun _ => .otherError) (fun _ => (0 : Int)) 1 [2] [30]
  have h2 := safe_tweet_other_error (fun _ => .otherError) (fun _ => (0 : Int)) 2 [] [30, 30]
  refine ⟨?_, h0.2.2⟩
  rw [h0.1 rfl (by omega)]
  simp only [List.nil_append]
  rw [h1.1 rfl (by omega)]
  simp only [List.singleton_append]
  rw [h2.2.1 rfl]

/-- A failed attempt behaves uniformly: sleep-and-retry if non-final, give up
if final. -/
theorem genAttempts_fail_step (provider : Nat → GenOutcome) (attempt : Nat)
    (rest sleeps : List Nat) (calls : Nat) (h : genFails (provider attempt) = true) :
    genAttempts provider (attempt :: rest) sleeps calls =
      if attempt < 2 then genAttempts provider rest (sleeps ++ [5]) (calls + 1)
      else ⟨none, sleeps, calls + 1⟩ := by
  cases hp : provider attempt with
  | genError => simp [genAttempts, hp]
  | completion c =>
    have hc : (pyStrip c).isEmpty = true := by
      simpa [genFails, hp] using h
    simp [genAttempts, hp, hc]

/-- The loop makes at most one provider call per listed attempt. -/
theorem genAttempts_calls_le (provider : Nat → GenOutcome) :
    ∀ (as sleeps : List Nat) (calls : Nat),
      (genAttempts provider as sleeps calls).calls ≤ calls + as.length := by
  intro as
  induction as with
  | nil => intro sleeps calls; simp [genAttempts]
  | cons a rest ih =>
    intro sleeps calls
    cases hp : provider a with
    | genError =>
      by_cases hlt : a < 3 - 1
      · simp only [genAttempts, hp, if_pos hlt]
        calc (genAttempts provider rest (sleeps ++ [5]) (calls + 1)).calls
            ≤ (calls + 1) + rest.length := ih _ _
          _ ≤ calls + (a :: rest).length := by simp [List.length_cons]; omega
      · simp only [genAttempts, hp, if_neg hlt]
        simp [List.length_cons]
    | completion c =>
      by_cases hc : (pyStrip c).isEmpty
      · by_cases hlt : a < 3 - 1
        · simp only [genAttempts, hp, hc, if_pos hlt, if_true]
          calc (genAttempts provider rest (sleeps ++ [5]) (calls + 1)).calls
              ≤ (calls + 1) + rest.length := ih _ _
            _ ≤ calls + (a :: rest).length := by simp [List.length_cons]; omega
        · simp only [genAttempts, hp, hc, if_neg hlt, if_true]
          simp [List.length_cons]
      · simp only [genAttempts, hp]
        rw [if_neg hc]
        simp [List.length_cons]

/-- C6: generation makes at most 3 provider calls; a run all of whose
attempts fail — in particular one whose completions are always empty or
whitespace-only — ends after exactly 3 attempts with the explicit `None`
failure value (the outer handler result, not an escaping exception). -/
theorem generate_ai_tweet_exhaustion (provider : Nat → GenOutcome) :
    (∀ p : Nat → GenOutcome, (generate_ai_tweet p).calls ≤ 3) ∧
    ((∀ k, k < 3 → genFails (provider k) = true) →
      generate_ai_tweet provider = ⟨none, [5, 5], 3⟩) := by
  constructor
  · intro p
    have h := genAttempts_calls_le p (List.range 3) [] 0
    simpa using h
  · intro h
    rw [generate_ai_tweet, range_three]
    rw [genAttempts_fail_step provider 0 [1, 2] [] 0 (h 0 (by omega)), if_pos (by omega)]
    simp only [List.nil_append]
    rw [genAttempts_fail_step provider 1 [2] [5] 1 (h 1 (by omega)), if_pos (by omega)]
    simp only [List.singleton_append]
    rw [genAttempts_fail_step provider 2 [] [5, 5] 2 (h 2 (by omega)), if_neg (by omega)]

/-- Witness for `generate_ai_tweet_exhaustion`: a provider that always
returns a whitespace-only completion. -/
theorem generate_ai_tweet_exhaustion_witness :
    generate_ai_tweet (fun _ => .completion "  \n ".data) = ⟨none, [5, 5], 3⟩ :=
  (generate_ai_tweet_exhaustion (fun _ => .completion "  \n ".data)).2 (by decide)

/-- C7 (counterexample): with a stub failing twice then succeeding, the two
recorded backoff sleeps are both 5 seconds — not the increasing
`attempt_index * 5` schedule ([5, 10] for 1-based indices, [0, 5] for
0-based). -/
theorem gen_backoff_not_increasing :
    (generate_ai_tweet failTwiceStub).sleeps = [5, 5] ∧
    (generate_ai_tweet failTwiceStub).sleeps ≠ [5, 10] ∧
    (generate_ai_tweet failTwiceStub).sleeps ≠ [0, 5] := by
  refine ⟨?_, ?_, ?_⟩ <;>
    · rw [generate_ai_tweet, range_three]
      rw [genAttempts_fail_step failTwiceStub 0 [1, 2] [] 0 rfl, if_pos (by omega)]
      simp only [List.nil_append]
      rw [genAttempts_fail_step failTwiceStub 1 [2] [5] 1 rfl, if_pos (by omega)]
      simp only [List.singleton_append]
      simp [genAttempts, failTwiceStub, pyStrip, List.dropWhile, isPySpace]

/-- C7 (amended): between failed attempts the stage sleeps a fixed 5 seconds;
a stub failing twice then succeeding with non-empty text makes the stage
return that text (label-stripped and length-normalized) on the 3rd attempt,
after exactly two 5-second sleeps, and it never sleeps after the final
attempt. -/
theorem gen_backoff_fixed_five (provider : Nat → GenOutcome) (t : PyStr)
    (h0 : genFails (provider 0) = true) (h1 : genFails (provider 1) = true)
    (h2 : provider 2 = .completion t) (ht : (pyStrip t).isEmpty = false) :
    generate_ai_tweet provider =
      ⟨some (lengthNormalize (stripLabels (pyStrip t))), [5, 5], 3⟩ := by
  rw [generate_ai_tweet, range_three]
  rw [genAttempts_fail_step provider 0 [1, 2] [] 0 h0, if_pos (by omega)]
  simp only [List.nil_append]
  rw [genAttempts_fail_step provider 1 [2] [5] 1 h1, if_pos (by omega)]
  simp only [List.singleton_append]
  simp only [genAttempts, h2]
  rw [if_neg (by simp [ht])]

/-- Witness for `gen_backoff_fixed_five` at the concrete two-failure stub. -/
theorem gen_backoff_fixed_five_witness :
    generate_ai_tweet failTwiceStub =
      ⟨some (lengthNormalize (stripLabels (pyStrip "hello".data))), [5, 5], 3⟩ :=
  gen_backoff_fixed_five failTwiceStub "hello".data rfl rfl rfl (by decide)

theorem set_append_singleton {α : Type} (l : List α) (d v : α) :
    (l ++ [d]).set l.length v = l ++ [v] := by
  induction l with
  | nil => rfl
  | cons x xs ih =>
    simp only [List.cons_append, List.length_cons, List.set_cons_succ, ih]

theorem getD_append_singleton {α : Type} (l : List α) (d e : α) :
    (l ++ [d]).getD l.length e = d := by
  induction l with
  | nil => rfl
  | cons x xs ih =>
    simpa using ih

/-- A loop iteration only ever appends to the store. -/
theorem filterStep_store (s : FilterState) (a : Nat) :
    ∃ ext, (filterStep s a).store = s.store ++ ext := by
  by_cases h : 0 < jCountCalls (s.store.getD a [])
  · refine ⟨[dictSet (s.store.getD a []) "filtered_calls"
      (.num (jCountCalls (s.store.getD a [])))], ?_⟩
    simp only [filterStep, h, if_pos]
    rw [getD_append_singleton, set_append_singleton]
  · refine ⟨[], ?_⟩
    simp only [filterStep, List.append_nil]
    rw [if_neg h]

/-- The whole loop only ever appends to the store. -/
theorem runFilterLoop_store (as : List Nat) :
    ∀ s : FilterState, ∃ ext, (runFilterLoop s as).store = s.store ++ ext := by
  induction as with
  | nil => exact fun s => ⟨[], by simp [runFilterLoop]⟩
  | cons a rest ih =>
    intro s
    obtain ⟨e1, he1⟩ := filterStep_store s a
    obtain ⟨e2, he2⟩ := ih (filterStep s a)
    exact ⟨e1 ++ e2, by rw [runFilterLoop, he2, he1, List.append_assoc]⟩

/-- C10: filtering, annotation and sorting leave every parsed record object
unchanged: each survivor is shallow-copied to a fresh address before
`filtered_calls` is stored on the copy, so the original records — the first
`st.length` objects of the heap — are bit-for-bit the input records. -/
theorem get_top_tokens_heap_frame (st : List Dict) :
    (get_top_tokens_heap st).1.take st.length = st ∧
    st.length ≤ (get_top_tokens_heap st).1.length := by
  obtain ⟨ext, hext⟩ := runFilterLoop_store (List.range st.length) ⟨st, []⟩
  have h1 : (get_top_tokens_heap st).1 = st ++ ext := hext
  constructor
  · rw [h1, List.take_left]
  · rw [h1, List.length_append]
    omega
